import Mathlib

/-!
Verification of the `httpsplitter` HTTP packet library.

The Rust sources are embedded shallowly: byte/character data is modelled as
`List Char` (the inputs of interest are single-byte characters, so one `Char`
stands for one byte), strings as Lean `String`, fallible functions as
`Except PacketErr` or `Option`, and the two `expect`/`assert!` sites of
`src/packet.rs` as an outer `Option` layer whose `none` models a panic.
-/

set_option autoImplicit false

deriving instance DecidableEq for Except

namespace HttpSplitter

/-- Rust `char::is_whitespace` (the Unicode White_Space property), written as
the explicit code-point list. -/
def rustIsWhitespace (c : Char) : Bool :=
  c = ' ' || c = '\t' || c = '\n' || c.toNat = 11 || c.toNat = 12 || c = '\r' ||
  c.toNat = 0x85 || c.toNat = 0xA0 || c.toNat = 0x1680 ||
  (0x2000 ≤ c.toNat && c.toNat ≤ 0x200A) ||
  c.toNat = 0x2028 || c.toNat = 0x2029 || c.toNat = 0x202F || c.toNat = 0x205F ||
  c.toNat = 0x3000

/-- Rust `str::trim` on a character list: drop Unicode whitespace from both
ends. -/
def rustTrimL (l : List Char) : List Char :=
  ((l.dropWhile rustIsWhitespace).reverse.dropWhile rustIsWhitespace).reverse

/-- Rust `str::trim` lifted to `String`. -/
def rustTrim (s : String) : String := ⟨rustTrimL s.data⟩

/-- Rust `str::split_whitespace` on a character list: the maximal runs of
non-whitespace characters, in order.  Empty tokens never occur.  A
non-whitespace character either closes its token (when followed by whitespace
or the end) or is prepended to the token being formed behind it. -/
def splitWsL : List Char → List (List Char)
  | [] => []
  | c :: rest =>
    if rustIsWhitespace c then splitWsL rest
    else
      match rest with
      | [] => [[c]]
      | d :: _ =>
        if rustIsWhitespace d then [c] :: splitWsL rest
        else
          match splitWsL rest with
          | [] => [[c]]
          | t :: ts => (c :: t) :: ts

/-- Rust `str::split("\r\n")` on a character list: the segments between
occurrences of the two-character sequence CR LF.  The result is always
nonempty; splitting the empty list yields one empty segment, as in Rust. -/
def splitCrlfL : List Char → List (List Char)
  | '\r' :: '\n' :: rest => [] :: splitCrlfL rest
  | c :: rest =>
    match splitCrlfL rest with
    | [] => [[c]]
    | t :: ts => (c :: t) :: ts
  | [] => [[]]

/-- Rust `Vec::join("\r\n")`: interleave the segments with CR LF. -/
def joinCrlfL : List (List Char) → List Char
  | [] => []
  | [x] => x
  | x :: xs => x ++ '\r' :: '\n' :: joinCrlfL xs

/-- Rust `str::split_once(":")`: split at the first colon, or `none` when no
colon occurs.  The colon belongs to neither part.  This is also the effect of
`splitn(2, ':')` followed by `parts.get(1)` in `src/reader.rs`. -/
def splitOnceColonL : List Char → Option (List Char × List Char)
  | [] => none
  | ':' :: rest => some ([], rest)
  | c :: rest =>
    match splitOnceColonL rest with
    | none => none
    | some (a, b) => some (c :: a, b)

/-- Rust `char::to_ascii_lowercase`. -/
def asciiLowerChar (c : Char) : Char :=
  if 65 ≤ c.toNat && c.toNat ≤ 90 then Char.ofNat (c.toNat + 32) else c

/-- ASCII digit test, as used by Rust integer parsing. -/
def isAsciiDigit (c : Char) : Bool := 48 ≤ c.toNat && c.toNat ≤ 57

/-- Numeric value of an ASCII digit. -/
def digitVal (c : Char) : Nat := c.toNat - 48

/-- Rust `str::parse::<usize>`: an optional leading `+`, then one or more
ASCII digits, rejecting values that do not fit in 64 bits (overflow). -/
def parseUsizeL (l : List Char) : Option Nat :=
  let digits := match l with
    | '+' :: rest => rest
    | _ => l
  if digits ≠ [] ∧ digits.all isAsciiDigit then
    let n := digits.foldl (fun acc c => 10 * acc + digitVal c) 0
    if n < 2 ^ 64 then some n else none
  else none

/-- Split at every `'\n'` character; segments may be empty. -/
def splitLfL : List Char → List (List Char)
  | '\n' :: rest => [] :: splitLfL rest
  | c :: rest =>
    match splitLfL rest with
    | [] => [[c]]
    | t :: ts => (c :: t) :: ts
  | [] => [[]]

/-- Drop one trailing `'\r'`, as Rust `str::lines` does on each line. -/
def stripTrailingCr (l : List Char) : List Char :=
  match l.getLast? with
  | some '\r' => l.dropLast
  | _ => l

/-- Rust `str::lines`: split at `'\n'`, drop the final empty segment produced
by a trailing newline, and strip one trailing `'\r'` from each line. -/
def rustLinesL (l : List Char) : List (List Char) :=
  let segs := splitLfL l
  let segs := if segs.getLast? = some ([] : List Char) then segs.dropLast else segs
  segs.map stripTrailingCr

/-- Rust `str::starts_with` on character lists (`startsWithL l p` checks that
`p` begins `l`). -/
def startsWithL : List Char → List Char → Bool
  | _, [] => true
  | [], _ :: _ => false
  | c :: cs, p :: ps => c = p && startsWithL cs ps

/-- Errors raised while building or parsing packets (`PacketErr`,
`src/packet.rs`). -/
inductive PacketErr where
  | NoVersionFound
  | NoStatusCode
  | NoBody
  | InvalidLines
  | FirstLineWordCountMismatch
  | InvalidMethod
  | MissingMethod
  | MissingURL
  | MissingVersion
  | MalformedHeader (line : String)
  | NoHeaderEndFound
  | InvalidHttpVersion
  | InvalidStatusLine
deriving DecidableEq

/-- Supported HTTP versions (`Version`, `src/obj/version.rs`). -/
inductive Version where
  | V0_9
  | V1_0
  | V1_1
deriving DecidableEq

/-- `Version::to_string` (also its `Display` impl): `V0_9` has no wire
literal. -/
def Version.to_string : Version → String
  | .V0_9 => ""
  | .V1_0 => "HTTP/1.0"
  | .V1_1 => "HTTP/1.1"

/-- `Version::try_from_first_line` (`src/obj/version.rs`): trim the line,
split on whitespace (the `retain` re-filters empty tokens, a no-op), then
decide the version from the token count and the third token. -/
def Version.try_from_first_line (first_line : String) : Except PacketErr Version :=
  let parts := (splitWsL (rustTrimL first_line.data)).filter
    (fun p => (rustTrimL p).length ≠ 0)
  match parts with
  | [_, _] => .ok .V0_9
  | [_, _, v] =>
    if v = "HTTP/1.1".data then .ok .V1_1
    else if v = "HTTP/1.0".data then .ok .V1_0
    else .error .InvalidHttpVersion
  | _ => .error .FirstLineWordCountMismatch

/-- Modelled from the spec: `Version::try_from_first_req_line` is called from
`RequestPacketBuilder::try_from_str` in `src/packet.rs` but its definition is
absent from the sources.  Spec §4.1's `Version::fromRequestLine` rule is
word-for-word the rule implemented by `Version::try_from_first_line` of
`src/obj/version.rs`, so it is defined as that function. -/
def Version.try_from_first_req_line (first_line : String) : Except PacketErr Version :=
  Version.try_from_first_line first_line

/-- Modelled from the spec: `Version::try_from_first_res_line` is called from
`ResponsePacketBuilder::try_from_str` in `src/packet.rs` but its definition is
absent from the sources.  Spec §4.3 step 3 gives the response-line rule:
token 0 of segment 0 must be a supported version literal (`"HTTP/1.0"` or
`"HTTP/1.1"`, §6), anything else fails with `InvalidHttpVersion`. -/
def Version.try_from_first_res_line (first_line : String) : Except PacketErr Version :=
  match splitWsL first_line.data with
  | v :: _ =>
    if v = "HTTP/1.1".data then .ok .V1_1
    else if v = "HTTP/1.0".data then .ok .V1_0
    else .error .InvalidHttpVersion
  | [] => .error .InvalidHttpVersion

/-- Supported HTTP methods (`Method`, `src/obj/method.rs`). -/
inductive Method where
  | Get
  | Head
  | Options
  | Trace
  | Put
  | Delete
  | Post
  | Patch
  | Connect
deriving DecidableEq

/-- `Method::try_from`: trim, then exact match against the nine tokens. -/
def Method.try_from (s : String) : Option Method :=
  match rustTrim s with
  | "GET" => some .Get
  | "HEAD" => some .Head
  | "OPTIONS" => some .Options
  | "TRACE" => some .Trace
  | "PUT" => some .Put
  | "DELETE" => some .Delete
  | "POST" => some .Post
  | "PATCH" => some .Patch
  | "CONNECT" => some .Connect
  | _ => none

/-- `Method::to_string` (also its `Display` impl). -/
def Method.to_string : Method → String
  | .Get => "GET"
  | .Head => "HEAD"
  | .Options => "OPTIONS"
  | .Trace => "TRACE"
  | .Put => "PUT"
  | .Delete => "DELETE"
  | .Post => "POST"
  | .Patch => "PATCH"
  | .Connect => "CONNECT"

/-- An HTTP header (`Header`, `src/obj/header.rs`).  The `Body` newtype of
`src/obj/body.rs` wraps a `String`; packet bodies are modelled as
`Option String` directly. -/
structure Header where
  key : String
  value : String
deriving DecidableEq

/-- `Header::try_from` (`src/obj/header.rs`): split at the first colon;
everything before it is the key, everything after it (untrimmed) the value. -/
def Header.try_from (value : String) : Except PacketErr Header :=
  match splitOnceColonL value.data with
  | none => .error (.MalformedHeader value)
  | some (k, v) => .ok ⟨⟨k⟩, ⟨v⟩⟩

/-- Rust `StatusCodeInt = usize`, modelled as `Nat`; every value actually
produced by parsing is below `2 ^ 64`. -/
abbrev StatusCodeInt := Nat

/-- Supported status codes (`StatusCode`, `src/obj/status.rs`). -/
inductive StatusCode where
  | Continue
  | SwitchingProtocols
  | Processing
  | EarlyHints
  | Ok
  | Created
  | Accepted
  | NonAuthoritativeInformation
  | NoContent
  | ResetContent
  | PartialContent
  | MultiStatus
  | AlreadyReported
  | IMUsed
  | MultipleChoices
  | MovedPermanently
  | Found
  | SeeOther
  | NotModified
  | UseProxy
  | Unused
  | TemporaryRedirect
  | PermanentRedirect
  | BadRequest
  | Unauthorized
  | PaymentRequired
  | Forbidden
  | NotFound
  | MethodNotAllowed
  | NotAcceptable
  | ProxyAuthenticationRequired
  | RequestTimeout
  | Conflict
  | Gone
  | LengthRequired
  | PreconditionFailed
  | ContentTooLarge
  | UriTooLong
  | UnsupportedMediaType
  | RangeNotSatisfiable
  | ExpectationFailed
  | ImATeapot
  | MisdirectedRequest
  | UnprocessableContent
  | Locked
  | FailedDependency
  | TooEarly
  | UpgradeRequired
  | PreconditionRequired
  | TooManyRequests
  | RequestHeaderFieldsTooLarge
  | UnavailableForLegalReasons
  | InternalServerError
  | NotImplemented
  | BadGateway
  | ServiceUnavailable
  | GatewayTimeout
  | HttpVersionNotSupported
  | VariantAlsoNegotiates
  | InsufficientStorage
  | LoopDetected
  | NotExtended
  | NetworkAuthenticationRequired
deriving DecidableEq, Fintype

/-- `StatusCode::as_int` (`src/obj/status.rs`). -/
def StatusCode.as_int : StatusCode → StatusCodeInt
  | .Continue => 100
  | .SwitchingProtocols => 101
  | .Processing => 102
  | .EarlyHints => 103
  | .Ok => 200
  | .Created => 201
  | .Accepted => 202
  | .NonAuthoritativeInformation => 203
  | .NoContent => 204
  | .ResetContent => 205
  | .PartialContent => 206
  | .MultiStatus => 207
  | .AlreadyReported => 208
  | .IMUsed => 226
  | .MultipleChoices => 300
  | .MovedPermanently => 301
  | .Found => 302
  | .SeeOther => 303
  | .NotModified => 304
  | .UseProxy => 305
  | .Unused => 306
  | .TemporaryRedirect => 307
  | .PermanentRedirect => 308
  | .BadRequest => 400
  | .Unauthorized => 401
  | .PaymentRequired => 402
  | .Forbidden => 403
  | .NotFound => 404
  | .MethodNotAllowed => 405
  | .NotAcceptable => 406
  | .ProxyAuthenticationRequired => 407
  | .RequestTimeout => 408
  | .Conflict => 409
  | .Gone => 410
  | .LengthRequired => 411
  | .PreconditionFailed => 412
  | .ContentTooLarge => 413
  | .UriTooLong => 414
  | .UnsupportedMediaType => 415
  | .RangeNotSatisfiable => 416
  | .ExpectationFailed => 417
  | .ImATeapot => 418
  | .MisdirectedRequest => 421
  | .UnprocessableContent => 422
  | .Locked => 423
  | .FailedDependency => 424
  | .TooEarly => 425
  | .UpgradeRequired => 426
  | .PreconditionRequired => 428
  | .TooManyRequests => 429
  | .RequestHeaderFieldsTooLarge => 431
  | .UnavailableForLegalReasons => 451
  | .InternalServerError => 500
  | .NotImplemented => 501
  | .BadGateway => 502
  | .ServiceUnavailable => 503
  | .GatewayTimeout => 504
  | .HttpVersionNotSupported => 505
  | .VariantAlsoNegotiates => 506
  | .InsufficientStorage => 507
  | .LoopDetected => 508
  | .NotExtended => 510
  | .NetworkAuthenticationRequired => 511

/-- `StatusCode::try_from_int` (`src/obj/status.rs`). -/
def StatusCode.try_from_int (int : StatusCodeInt) : Option StatusCode :=
  match int with
  | 100 => some .Continue
  | 101 => some .SwitchingProtocols
  | 102 => some .Processing
  | 103 => some .EarlyHints
  | 200 => some .Ok
  | 201 => some .Created
  | 202 => some .Accepted
  | 203 => some .NonAuthoritativeInformation
  | 204 => some .NoContent
  | 205 => some .ResetContent
  | 206 => some .PartialContent
  | 207 => some .MultiStatus
  | 208 => some .AlreadyReported
  | 226 => some .IMUsed
  | 300 => some .MultipleChoices
  | 301 => some .MovedPermanently
  | 302 => some .Found
  | 303 => some .SeeOther
  | 304 => some .NotModified
  | 305 => some .UseProxy
  | 306 => some .Unused
  | 307 => some .TemporaryRedirect
  | 308 => some .PermanentRedirect
  | 400 => some .BadRequest
  | 401 => some .Unauthorized
  | 402 => some .PaymentRequired
  | 403 => some .Forbidden
  | 404 => some .NotFound
  | 405 => some .MethodNotAllowed
  | 406 => some .NotAcceptable
  | 407 => some .ProxyAuthenticationRequired
  | 408 => some .RequestTimeout
  | 409 => some .Conflict
  | 410 => some .Gone
  | 411 => some .LengthRequired
  | 412 => some .PreconditionFailed
  | 413 => some .ContentTooLarge
  | 414 => some .UriTooLong
  | 415 => some .UnsupportedMediaType
  | 416 => some .RangeNotSatisfiable
  | 417 => some .ExpectationFailed
  | 418 => some .ImATeapot
  | 421 => some .MisdirectedRequest
  | 422 => some .UnprocessableContent
  | 423 => some .Locked
  | 424 => some .FailedDependency
  | 425 => some .TooEarly
  | 426 => some .UpgradeRequired
  | 428 => some .PreconditionRequired
  | 429 => some .TooManyRequests
  | 431 => some .RequestHeaderFieldsTooLarge
  | 451 => some .UnavailableForLegalReasons
  | 500 => some .InternalServerError
  | 501 => some .NotImplemented
  | 502 => some .BadGateway
  | 503 => some .ServiceUnavailable
  | 504 => some .GatewayTimeout
  | 505 => some .HttpVersionNotSupported
  | 506 => some .VariantAlsoNegotiates
  | 507 => some .InsufficientStorage
  | 508 => some .LoopDetected
  | 510 => some .NotExtended
  | 511 => some .NetworkAuthenticationRequired
  | _ => none

/-- `StatusCode::description` (`src/obj/status.rs`): the canonical reason
phrase. -/
def StatusCode.description : StatusCode → String
  | .Continue => "Continue"
  | .SwitchingProtocols => "Switching Protocols"
  | .Processing => "Processing"
  | .EarlyHints => "Early Hints"
  | .Ok => "OK"
  | .Created => "Created"
  | .Accepted => "Accepted"
  | .NonAuthoritativeInformation => "Non-Authoritative Information"
  | .NoContent => "No Content"
  | .ResetContent => "Reset Content"
  | .PartialContent => "Partial Content"
  | .MultiStatus => "Multi-Status"
  | .AlreadyReported => "Already Reported"
  | .IMUsed => "IM Used"
  | .MultipleChoices => "Multiple Choices"
  | .MovedPermanently => "Moved Permanently"
  | .Found => "Found"
  | .SeeOther => "See Other"
  | .NotModified => "Not Modified"
  | .UseProxy => "Use Proxy"
  | .Unused => "Unused"
  | .TemporaryRedirect => "Temporary Redirect"
  | .PermanentRedirect => "Permanent Redirect"
  | .BadRequest => "Bad Request"
  | .Unauthorized => "Unauthorized"
  | .PaymentRequired => "Payment Required"
  | .Forbidden => "Forbidden"
  | .NotFound => "Not Found"
  | .MethodNotAllowed => "Method Not Allowed"
  | .NotAcceptable => "Not Acceptable"
  | .ProxyAuthenticationRequired => "Proxy Authentication Required"
  | .RequestTimeout => "Request Timeout"
  | .Conflict => "Conflict"
  | .Gone => "Gone"
  | .LengthRequired => "Length Required"
  | .PreconditionFailed => "Precondition Failed"
  | .ContentTooLarge => "Content Too Large"
  | .UriTooLong => "URI Too Long"
  | .UnsupportedMediaType => "Unsupported Media Type"
  | .RangeNotSatisfiable => "Range Not Satisfiable"
  | .ExpectationFailed => "Expectation Failed"
  | .ImATeapot => "I'm a teapot"
  | .MisdirectedRequest => "Misdirected Request"
  | .UnprocessableContent => "Unprocessable Content"
  | .Locked => "Locked"
  | .FailedDependency => "Failed Dependency"
  | .TooEarly => "Too Early"
  | .UpgradeRequired => "Upgrade Required"
  | .PreconditionRequired => "Precondition Required"
  | .TooManyRequests => "Too Many Requests"
  | .RequestHeaderFieldsTooLarge => "Request Header Fields Too Large"
  | .UnavailableForLegalReasons => "Unavailable For Legal Reasons"
  | .InternalServerError => "Internal Server Error"
  | .NotImplemented => "Not Implemented"
  | .BadGateway => "Bad Gateway"
  | .ServiceUnavailable => "Service Unavailable"
  | .GatewayTimeout => "Gateway Timeout"
  | .HttpVersionNotSupported => "HTTP Version Not Supported"
  | .VariantAlsoNegotiates => "Variant Also Negotiates"
  | .InsufficientStorage => "Insufficient Storage"
  | .LoopDetected => "Loop Detected"
  | .NotExtended => "Not Extended"
  | .NetworkAuthenticationRequired => "Network Authentication Required"

/-- `StatusCode::code_and_description` (also the `Display` impl): e.g.
`200 OK`. -/
def StatusCode.code_and_description (c : StatusCode) : String :=
  toString c.as_int ++ " " ++ c.description

/-- `StatusCode::try_from_first_res_line` (`src/obj/status.rs`): the line must
split into exactly three whitespace tokens `VERSION CODE CODE_DESC`; the code
must parse as a `usize` naming a supported variant whose canonical description
equals the third token exactly. -/
def StatusCode.try_from_first_res_line (s : String) : Except PacketErr StatusCode :=
  match splitWsL s.data with
  | [_, p1, p2] =>
    match parseUsizeL p1 with
    | none => .error .InvalidStatusLine
    | some status_code =>
      match StatusCode.try_from_int status_code with
      | some code_enum =>
        if code_enum.description.data ≠ p2 then .error .InvalidStatusLine
        else .ok code_enum
      | none => .error .InvalidStatusLine
  | _ => .error .InvalidStatusLine

/-- An HTTP request packet (`RequestPacket`, `src/packet.rs`). -/
structure RequestPacket where
  method : Method
  url : String
  version : Version
  headers : List Header
  body : Option String
deriving DecidableEq

/-- The header-rendering loop shared by `RequestPacket::to_string` and
`ResponsePacket::try_to_string`: one `"{key}: {value}\r\n"` line per header,
in sequence order. -/
def headersRender : List Header → String
  | [] => ""
  | h :: t => h.key ++ ": " ++ h.value ++ "\r\n" ++ headersRender t

/-- `RequestPacket::to_string` (`src/packet.rs`): start line, header lines,
one blank-line CRLF, then the body verbatim with no trailing CRLF. -/
def RequestPacket.to_string (r : RequestPacket) : String :=
  r.method.to_string ++ " " ++ r.url ++ " " ++ r.version.to_string ++ "\r\n" ++
  headersRender r.headers ++ "\r\n" ++
  (match r.body with
   | some b => b
   | none => "")

/-- Transitive builder for request packets (`RequestPacketBuilder`,
`src/packet.rs`). -/
structure RequestPacketBuilder where
  method : Option Method
  url : Option String
  version : Option Version
  headers : Option (List Header)
  body : Option String
deriving DecidableEq

/-- `RequestPacketBuilder::try_build`: method, url and version are required;
an absent header list defaults to the empty list. -/
def RequestPacketBuilder.try_build (b : RequestPacketBuilder) :
    Except PacketErr RequestPacket :=
  match b.method with
  | none => .error .MissingMethod
  | some m =>
    match b.url with
    | none => .error .MissingURL
    | some u =>
      match b.version with
      | none => .error .MissingVersion
      | some v => .ok ⟨m, u, v, b.headers.getD [], b.body⟩

/-- The header-parsing loop shared by both `try_from_str` functions in
`src/packet.rs`: walk the segments after the first line, parsing each as a
header, stopping at the first empty segment, aborting on the first failure. -/
def parseHeaderLines : List (List Char) → Except PacketErr (List Header)
  | [] => .ok []
  | l :: rest =>
    if l = ([] : List Char) then .ok []
    else
      match Header.try_from ⟨l⟩ with
      | .error e => .error e
      | .ok h =>
        match parseHeaderLines rest with
        | .error e => .error e
        | .ok hs => .ok (h :: hs)

/-- `RequestPacketBuilder::try_from_str` (`src/packet.rs`).  The source's
trim-and-retain acts on a discarded temporary vector, so `lines` is the plain
CRLF split.  The `expect` locating the empty segment is modelled by the outer
`Option`: `none` is a panic.  `lines.drain(0..body_start_index).collect()`
removes and returns the first `body_start_index` segments (panicking when
that bound exceeds the length, the other `none`), and its result is assigned
back to `lines`: the joined body is therefore the removed prefix — start
line, header lines and the empty sentinel — not the segments after the
sentinel. -/
def RequestPacketBuilder.try_from_str (s : String) :
    Option (Except PacketErr RequestPacketBuilder) :=
  let lines := splitCrlfL s.data
  match lines with
  | [] => some (.error .InvalidLines)
  | first_line :: _ =>
    match Version.try_from_first_req_line ⟨first_line⟩ with
    | .error e => some (.error e)
    | .ok version =>
      let fl_parts := ((splitWsL first_line).map rustTrimL).filter
        (fun x => x.length > 0)
      match fl_parts with
      | method_str :: url :: restParts =>
        if restParts.length > 1 then some (.error .FirstLineWordCountMismatch)
        else
          match Method.try_from ⟨method_str⟩ with
          | none => some (.error .InvalidMethod)
          | some method =>
            if ¬ ([] : List Char) ∈ lines then some (.error .NoHeaderEndFound)
            else
              match parseHeaderLines (lines.drop 1) with
              | .error e => some (.error e)
              | .ok headers =>
                match lines.findIdx? (fun x => x = ([] : List Char)) with
                | none => none
                | some index_header_end =>
                  let body_start_index := index_header_end + 1
                  if lines.length < body_start_index then none
                  else
                    let body_str := joinCrlfL (lines.take body_start_index)
                    let body : Option String :=
                      if body_str = ([] : List Char) then none
                      else some ⟨body_str⟩
                    some (.ok { body := body, version := some version,
                                method := some method,
                                url := some (⟨url⟩ : String),
                                headers := some headers })
      | _ => some (.error .FirstLineWordCountMismatch)

/-- An HTTP response packet (`ResponsePacket`, `src/packet.rs`). -/
structure ResponsePacket where
  version : Version
  status : Option StatusCode
  headers : Option (List Header)
  body : Option String
deriving DecidableEq

/-- `ResponsePacket::try_to_string` (`src/packet.rs`): V0_9 is the bare body;
V1_0/V1_1 are the status line, the header lines plus a blank-line CRLF when a
header list is present (even empty), then the body. -/
def ResponsePacket.try_to_string (p : ResponsePacket) : Except PacketErr String :=
  match p.version with
  | .V0_9 =>
    match p.body with
    | none => .error .NoBody
    | some b => .ok b
  | .V1_0 =>
    match p.status with
    | none => .error .NoStatusCode
    | some st =>
      .ok (p.version.to_string ++ " " ++ st.code_and_description ++ "\r\n" ++
        (match p.headers with
         | some hdrs => headersRender hdrs ++ "\r\n"
         | none => "") ++
        (match p.body with
         | some b => b
         | none => ""))
  | .V1_1 =>
    match p.status with
    | none => .error .NoStatusCode
    | some st =>
      .ok (p.version.to_string ++ " " ++ st.code_and_description ++ "\r\n" ++
        (match p.headers with
         | some hdrs => headersRender hdrs ++ "\r\n"
         | none => "") ++
        (match p.body with
         | some b => b
         | none => ""))

/-- Transitive builder for response packets (`ResponsePacketBuilder`,
`src/packet.rs`). -/
structure ResponsePacketBuilder where
  version : Option Version
  status : Option StatusCode
  headers : Option (List Header)
  body : Option String
deriving DecidableEq

/-- `ResponsePacketBuilder::try_build`: a version is required; V1_0/V1_1
additionally require a status. -/
def ResponsePacketBuilder.try_build (b : ResponsePacketBuilder) :
    Except PacketErr ResponsePacket :=
  match b.version with
  | none => .error .NoVersionFound
  | some v =>
    match v with
    | .V0_9 => .ok ⟨v, b.status, b.headers, b.body⟩
    | .V1_0 =>
      match b.status with
      | none => .error .NoStatusCode
      | some st => .ok ⟨v, some st, b.headers, b.body⟩
    | .V1_1 =>
      match b.status with
      | none => .error .NoStatusCode
      | some st => .ok ⟨v, some st, b.headers, b.body⟩

/-- `ResponsePacketBuilder::try_from_str` (`src/packet.rs`).  The `assert!`
on the segment count and the `expect` locating the empty segment are modelled
by the outer `Option`: `none` is a panic.  As on the request side,
`lines.drain(0..body_start_index).collect()` removes and returns the first
`body_start_index` segments (panicking when that bound exceeds the length,
the other `none`) and is assigned back to `lines`, so the joined body is the
removed prefix — status line, header lines and the empty sentinel — not the
segments after the sentinel. -/
def ResponsePacketBuilder.try_from_str (s : String) :
    Option (Except PacketErr ResponsePacketBuilder) :=
  if (rustTrimL s.data).length = 0 then some (.error .InvalidLines)
  else
    let lines := splitCrlfL s.data
    if lines.length = 1 ∨ lines.length = 2 then some (.error .InvalidLines)
    else
      match lines with
      | [] => none
      | first_line :: _ =>
        match Version.try_from_first_res_line ⟨first_line⟩ with
        | .error e => some (.error e)
        | .ok version =>
          match StatusCode.try_from_first_res_line ⟨first_line⟩ with
          | .error e => some (.error e)
          | .ok code =>
            if ¬ ([] : List Char) ∈ lines then some (.error .NoHeaderEndFound)
            else
              match parseHeaderLines (lines.drop 1) with
              | .error e => some (.error e)
              | .ok headers =>
                match lines.findIdx? (fun x => x = ([] : List Char)) with
                | none => none
                | some index_header_end =>
                  let body_start_index := index_header_end + 1
                  if lines.length < body_start_index then none
                  else
                    let body_str := joinCrlfL (lines.take body_start_index)
                    let body : Option String :=
                      if body_str = ([] : List Char) then none
                      else some ⟨body_str⟩
                    let collected_headers : Option (List Header) :=
                      if headers.length = 0 then none else some headers
                    some (.ok { headers := collected_headers,
                                version := some version,
                                status := some code, body := body })

/-- Kinds of I/O errors surfaced by `src/reader.rs` (`std::io::ErrorKind`). -/
inductive IOErrorKind where
  | unexpectedEof
  | invalidData
deriving DecidableEq

/-- An I/O error: a kind plus the human-readable message built by
`src/reader.rs`. -/
structure IOError where
  kind : IOErrorKind
  msg : String
deriving DecidableEq

/-- The byte-at-a-time scan of `read_full_packet` for the `\r\n\r\n` header
terminator: the shortest prefix ending in the sequence (returned with the
terminator included) together with the unread remainder, or `none` when the
source exhausts first. -/
def splitAtDoubleCrlf : List Char → Option (List Char × List Char)
  | '\r' :: '\n' :: '\r' :: '\n' :: rest => some (['\r', '\n', '\r', '\n'], rest)
  | c :: rest =>
    match splitAtDoubleCrlf rest with
    | none => none
    | some (p, r) => some (c :: p, r)
  | [] => none

/-- The Content-Length scan of `read_full_packet`: the first decoded header
line whose ASCII-lowercased form starts with `"content-length:"`. -/
def findContentLengthLineL (hdr : List Char) : Option (List Char) :=
  (rustLinesL hdr).find?
    (fun line => startsWithL (line.map asciiLowerChar) "content-length:".data)

/-- `read_full_packet` (`src/reader.rs`) against a sequential byte source
modelled as the list of characters it will deliver, each read returning all
bytes still available (as `std::io::Cursor` does) and `0` at exhaustion.
Under that model the body-read loop nets out to: fewer remaining bytes than
`content_length` means a zero-byte read before the target count, an
end-of-stream error reporting expected versus received counts; otherwise the
first `content_length` remaining bytes are the body.  `String::from_utf8` is
the identity here, every modelled character standing for one byte. -/
def read_full_packet (input : List Char) : Except IOError (String × Option String) :=
  match splitAtDoubleCrlf input with
  | none =>
    .error ⟨.unexpectedEof,
      "Ran out of bytes before finding end of headers (\\r\\n\\r\\n)"⟩
  | some (header_buffer, rest) =>
    let headers_str : String := ⟨header_buffer⟩
    match findContentLengthLineL header_buffer with
    | none => .ok (headers_str, none)
    | some content_length_line =>
      match splitOnceColonL content_length_line with
      | none => .error ⟨.invalidData, "Malformed Content-Length header"⟩
      | some (_, size_str) =>
        match parseUsizeL (rustTrimL size_str) with
        | none => .error ⟨.invalidData, "Invalid Content-Length value"⟩
        | some content_length =>
          if rest.length < content_length then
            .error ⟨.unexpectedEof,
              "Expected " ++ toString content_length ++
              " bytes for body, but only received " ++ toString rest.length⟩
          else .ok (headers_str, some ⟨rest.take content_length⟩)

/-- Validity of a request packet for wire round-tripping: the url is a single
nonempty whitespace-free token, header keys are colon-free and header fields
contain no CR or LF, and a present body is nonempty (an empty body and an
absent body share one wire form). -/
def ValidRequest (r : RequestPacket) : Prop :=
  r.url.data ≠ [] ∧
  (∀ c ∈ r.url.data, rustIsWhitespace c = false) ∧
  (∀ h ∈ r.headers,
    (':' ∉ h.key.data) ∧ ('\r' ∉ h.key.data) ∧ ('\n' ∉ h.key.data) ∧
    ('\r' ∉ h.value.data) ∧ ('\n' ∉ h.value.data)) ∧
  r.body ≠ some ""

instance (r : RequestPacket) : Decidable (ValidRequest r) := by
  unfold ValidRequest; infer_instance

/-- The wire form of one header line, as a character list: `key`, a colon, the
serializer's separator space, then `value`. -/
def headerLineL (h : Header) : List Char :=
  h.key.data ++ ':' :: ' ' :: h.value.data

section ListLemmas

variable {α : Type} (p : α → Bool)

theorem takeWhile_append_of_all (a b : List α) (h : ∀ x ∈ a, p x = true) :
    (a ++ b).takeWhile p = a ++ b.takeWhile p := by
  induction a with
  | nil => rfl
  | cons c t ih =>
    have hc : p c = true := h c (by simp)
    simp only [List.cons_append, List.takeWhile_cons, hc, if_true]
    rw [ih (fun x hx => h x (by simp [hx]))]

theorem dropWhile_append_of_all (a b : List α) (h : ∀ x ∈ a, p x = true) :
    (a ++ b).dropWhile p = b.dropWhile p := by
  induction a with
  | nil => rfl
  | cons c t ih =>
    have hc : p c = true := h c (by simp)
    simp only [List.cons_append, List.dropWhile_cons, hc, if_true]
    exact ih (fun x hx => h x (by simp [hx]))

theorem takeWhile_nil_of_head (l : List α)
    (h : l = [] ∨ ∃ c t, l = c :: t ∧ p c = false) : l.takeWhile p = [] := by
  rcases h with h | ⟨c, t, rfl, hc⟩
  · simp [h]
  · simp [List.takeWhile_cons, hc]

theorem dropWhile_eq_self_of_takeWhile_nil (l : List α)
    (h : l.takeWhile p = []) : l.dropWhile p = l := by
  cases l with
  | nil => rfl
  | cons c t =>
    by_cases hc : p c = true
    · simp [List.takeWhile_cons, hc] at h
    · simp at hc
      simp [List.dropWhile_cons, hc]

theorem dropWhile_head_not (l : List α) :
    l.dropWhile p = [] ∨ ∃ c t, l.dropWhile p = c :: t ∧ p c = false := by
  induction l with
  | nil => exact .inl rfl
  | cons c t ih =>
    by_cases hc : p c = true
    · simpa [List.dropWhile_cons, hc] using ih
    · simp at hc
      exact .inr ⟨c, t, by simp [List.dropWhile_cons, hc], hc⟩

end ListLemmas

section SplitWsLemmas

theorem mem_takeWhile_true {α : Type} (p : α → Bool) (l : List α) (x : α)
    (hx : x ∈ l.takeWhile p) : p x = true :=
  List.mem_takeWhile_imp hx

theorem splitWsL_cons (c : Char) (rest : List Char) :
    splitWsL (c :: rest) =
      if rustIsWhitespace c then splitWsL rest
      else
        match rest with
        | [] => [[c]]
        | d :: _ =>
          if rustIsWhitespace d then [c] :: splitWsL rest
          else
            match splitWsL rest with
            | [] => [[c]]
            | t :: ts => (c :: t) :: ts := rfl

theorem splitWsL_cons_ws (c : Char) (l : List Char) (h : rustIsWhitespace c = true) :
    splitWsL (c :: l) = splitWsL l := by
  rw [splitWsL_cons, if_pos h]

theorem splitWsL_single (c : Char) (h : rustIsWhitespace c = false) :
    splitWsL [c] = [[c]] := by
  rw [splitWsL_cons, if_neg (by simp [h])]

theorem splitWsL_cons₂ (c d : Char) (l : List Char) (hc : rustIsWhitespace c = false) :
    splitWsL (c :: d :: l) =
      if rustIsWhitespace d then [c] :: splitWsL (d :: l)
      else
        match splitWsL (d :: l) with
        | [] => [[c]]
        | t :: ts => (c :: t) :: ts := by
  rw [splitWsL_cons, if_neg (by simp [hc])]

theorem splitWsL_all_ws (l : List Char) (h : ∀ c ∈ l, rustIsWhitespace c = true) :
    splitWsL l = [] := by
  induction l with
  | nil => rfl
  | cons c t ih =>
    rw [splitWsL_cons_ws c t (h c (by simp))]
    exact ih (fun x hx => h x (by simp [hx]))

theorem splitWsL_dropWhile_ws (l : List Char) :
    splitWsL (l.dropWhile rustIsWhitespace) = splitWsL l := by
  induction l with
  | nil => rfl
  | cons c t ih =>
    by_cases hc : rustIsWhitespace c = true
    · rw [List.dropWhile_cons, if_pos hc, splitWsL_cons_ws c t hc]
      exact ih
    · simp at hc
      rw [List.dropWhile_cons, if_neg (by simp [hc])]

theorem splitWsL_token (t r : List Char) (ht : t ≠ [])
    (hall : ∀ c ∈ t, rustIsWhitespace c = false)
    (hr : r = [] ∨ ∃ d r', r = d :: r' ∧ rustIsWhitespace d = true) :
    splitWsL (t ++ r) = t :: splitWsL r := by
  induction t with
  | nil => exact absurd rfl ht
  | cons c t' ih =>
    have hc : rustIsWhitespace c = false := hall c (by simp)
    cases t' with
    | nil =>
      rcases hr with rfl | ⟨d, r', rfl, hd⟩
      · rw [List.cons_append, List.nil_append]
        exact splitWsL_single c hc
      · rw [List.cons_append, List.nil_append, splitWsL_cons₂ c d r' hc, if_pos hd]
    | cons c'' t'' =>
      have h2 : rustIsWhitespace c'' = false := hall c'' (by simp)
      have ihh := ih (by simp) (fun x hx => hall x (List.mem_cons_of_mem c hx))
      simp only [List.cons_append] at ihh ⊢
      rw [splitWsL_cons₂ c c'' (t'' ++ r) hc, if_neg (by simp [h2]), ihh]

theorem splitWsL_append_ws (l w : List Char)
    (hw : ∀ c ∈ w, rustIsWhitespace c = true) :
    splitWsL (l ++ w) = splitWsL l := by
  induction l with
  | nil =>
    rw [List.nil_append]
    exact splitWsL_all_ws w hw
  | cons c rest ih =>
    by_cases hc : rustIsWhitespace c = true
    · rw [List.cons_append, splitWsL_cons_ws c _ hc, splitWsL_cons_ws c _ hc]
      exact ih
    · simp at hc
      cases rest with
      | nil =>
        rw [List.cons_append, List.nil_append, splitWsL_single c hc]
        cases w with
        | nil => exact splitWsL_single c hc
        | cons y ys =>
          have hy : rustIsWhitespace y = true := hw y (by simp)
          rw [splitWsL_cons₂ c y ys hc, if_pos hy, splitWsL_cons_ws y ys hy,
            splitWsL_all_ws ys (fun x hx => hw x (by simp [hx]))]
      | cons e rest' =>
        simp only [List.cons_append] at ih ⊢
        by_cases he : rustIsWhitespace e = true
        · rw [splitWsL_cons₂ c e (rest' ++ w) hc, if_pos he,
            splitWsL_cons₂ c e rest' hc, if_pos he, ih]
        · simp at he
          rw [splitWsL_cons₂ c e (rest' ++ w) hc,
            if_neg (by simp [he]), splitWsL_cons₂ c e rest' hc,
            if_neg (by simp [he]), ih]

theorem splitWsL_trim (l : List Char) : splitWsL (rustTrimL l) = splitWsL l := by
  unfold rustTrimL
  set m := l.dropWhile rustIsWhitespace with hm
  have h1 : splitWsL m = splitWsL l := splitWsL_dropWhile_ws l
  have hsplit : m.reverse.takeWhile rustIsWhitespace ++
      m.reverse.dropWhile rustIsWhitespace = m.reverse :=
    List.takeWhile_append_dropWhile rustIsWhitespace m.reverse
  have hm_eq : m = (m.reverse.dropWhile rustIsWhitespace).reverse ++
      (m.reverse.takeWhile rustIsWhitespace).reverse := by
    conv_lhs => rw [← List.reverse_reverse m, ← hsplit]
    rw [List.reverse_append]
  have hws : ∀ c ∈ (m.reverse.takeWhile rustIsWhitespace).reverse,
      rustIsWhitespace c = true := by
    intro c hc
    rw [List.mem_reverse] at hc
    exact mem_takeWhile_true rustIsWhitespace m.reverse c hc
  rw [← h1]
  conv_rhs => rw [hm_eq]
  rw [splitWsL_append_ws _ _ hws]

theorem splitWsL_tokens_ok (l : List Char) :
    ∀ t ∈ splitWsL l, t ≠ [] ∧ ∀ c ∈ t, rustIsWhitespace c = false := by
  induction l with
  | nil => intro t ht; exact absurd ht (List.not_mem_nil t)
  | cons c rest ih =>
    by_cases hc : rustIsWhitespace c = true
    · rw [splitWsL_cons_ws c _ hc]
      exact ih
    · simp at hc
      cases rest with
      | nil =>
        rw [splitWsL_single c hc]
        intro t ht
        simp at ht
        subst ht
        exact ⟨by simp, by simp [hc]⟩
      | cons d rest' =>
        by_cases hd : rustIsWhitespace d = true
        · rw [splitWsL_cons₂ c d rest' hc, if_pos hd]
          intro t ht
          rcases List.mem_cons.mp ht with rfl | ht'
          · exact ⟨by simp, by simp [hc]⟩
          · exact ih t ht'
        · rw [splitWsL_cons₂ c d rest' hc, if_neg hd]
          cases hsp : splitWsL (d :: rest') with
          | nil =>
            intro t ht
            simp at ht
            subst ht
            exact ⟨by simp, by simp [hc]⟩
          | cons t0 ts =>
            intro t ht
            rcases List.mem_cons.mp ht with rfl | ht'
            · have h0 := ih t0 (by rw [hsp]; simp)
              refine ⟨by simp, ?_⟩
              intro x hx
              rcases List.mem_cons.mp hx with rfl | hx'
              · exact hc
              · exact h0.2 x hx'
            · exact ih t (by rw [hsp]; simp [ht'])

theorem rustTrimL_of_no_ws (l : List Char)
    (h : ∀ c ∈ l, rustIsWhitespace c = false) : rustTrimL l = l := by
  unfold rustTrimL
  have h1 : l.dropWhile rustIsWhitespace = l := by
    apply dropWhile_eq_self_of_takeWhile_nil
    apply takeWhile_nil_of_head
    cases l with
    | nil => exact .inl rfl
    | cons c t => exact .inr ⟨c, t, rfl, h c (by simp)⟩
  rw [h1]
  have h2 : l.reverse.dropWhile rustIsWhitespace = l.reverse := by
    apply dropWhile_eq_self_of_takeWhile_nil
    apply takeWhile_nil_of_head
    cases hr : l.reverse with
    | nil => exact .inl rfl
    | cons c t =>
      refine .inr ⟨c, t, rfl, h c ?_⟩
      rw [← List.mem_reverse, hr]
      simp
  rw [h2, List.reverse_reverse]

end SplitWsLemmas

section SplitCrlfLemmas

theorem splitCrlfL_nil : splitCrlfL [] = [[]] := rfl

theorem splitCrlfL_crlf (l : List Char) :
    splitCrlfL ('\r' :: '\n' :: l) = [] :: splitCrlfL l := rfl

theorem splitCrlfL_cons_gen (c : Char) (l : List Char)
    (h : ∀ t, c = '\r' → l = '\n' :: t → False) :
    splitCrlfL (c :: l) =
      match splitCrlfL l with
      | [] => [[c]]
      | t :: ts => (c :: t) :: ts := by
  rw [splitCrlfL.eq_def]
  split
  · rename_i rest heq
    injection heq with h1 h2
    exact (h rest h1 h2).elim
  · rename_i x1 cv restv hcond heq
    injection heq with h1 h2
    subst h1
    subst h2
    rfl
  · rename_i x heq
    cases heq

theorem splitCrlfL_cons_ne (c : Char) (l : List Char) (h : c ≠ '\r') :
    splitCrlfL (c :: l) =
      match splitCrlfL l with
      | [] => [[c]]
      | t :: ts => (c :: t) :: ts :=
  splitCrlfL_cons_gen c l (fun _ h1 _ => h h1)

theorem splitCrlfL_ne_nil (l : List Char) : splitCrlfL l ≠ [] := by
  induction l using splitCrlfL.induct with
  | case1 rest ih => rw [splitCrlfL_crlf]; simp
  | case2 c rest hcond hnil ih =>
    rw [splitCrlfL_cons_gen c rest hcond, hnil]
    simp
  | case3 c rest hcond t ts heq ih =>
    rw [splitCrlfL_cons_gen c rest hcond, heq]
    simp
  | case4 => rw [splitCrlfL_nil]; simp

theorem joinCrlfL_cons_cons (c : Char) (t : List Char) (ts : List (List Char)) :
    joinCrlfL ((c :: t) :: ts) = c :: joinCrlfL (t :: ts) := by
  cases ts <;> rfl

theorem joinCrlfL_cons_of_ne_nil (x : List Char) (xs : List (List Char))
    (h : xs ≠ []) : joinCrlfL (x :: xs) = x ++ '\r' :: '\n' :: joinCrlfL xs := by
  cases xs with
  | nil => exact absurd rfl h
  | cons y ys => rfl

theorem joinCrlfL_splitCrlfL (l : List Char) :
    joinCrlfL (splitCrlfL l) = l := by
  induction l using splitCrlfL.induct with
  | case1 rest ih =>
    rw [splitCrlfL_crlf, joinCrlfL_cons_of_ne_nil _ _ (splitCrlfL_ne_nil rest),
      List.nil_append, ih]
  | case2 c rest hcond hnil ih =>
    exact absurd hnil (splitCrlfL_ne_nil rest)
  | case3 c rest hcond t ts heq ih =>
    rw [splitCrlfL_cons_gen c rest hcond, heq]
    rw [heq] at ih
    show joinCrlfL ((c :: t) :: ts) = c :: rest
    rw [joinCrlfL_cons_cons, ih]
  | case4 => rfl

theorem splitCrlfL_append_line (a rest : List Char) (h : '\r' ∉ a) :
    splitCrlfL (a ++ '\r' :: '\n' :: rest) = a :: splitCrlfL rest := by
  induction a with
  | nil => exact splitCrlfL_crlf rest
  | cons c a' ih =>
    have hc : c ≠ '\r' := fun hcc => h (by simp [hcc])
    rw [List.cons_append, splitCrlfL_cons_ne c _ hc,
      ih (fun hm => h (by simp [hm]))]

theorem splitOnceColonL_cons_ne (c : Char) (l : List Char) (h : c ≠ ':') :
    splitOnceColonL (c :: l) =
      match splitOnceColonL l with
      | none => none
      | some (a, b) => some (c :: a, b) := by
  rw [splitOnceColonL.eq_def]
  split
  · rename_i heq
    cases heq
  · rename_i rest heq
    injection heq with h1 h2
    exact absurd h1 h
  · rename_i x1 cv restv hcond heq
    injection heq with h1 h2
    subst h1
    subst h2
    rfl

theorem splitOnceColonL_append (a b : List Char) (h : ':' ∉ a) :
    splitOnceColonL (a ++ ':' :: b) = some (a, b) := by
  induction a with
  | nil => rfl
  | cons c a' ih =>
    have hc : c ≠ ':' := fun hcc => h (by simp [hcc])
    rw [List.cons_append, splitOnceColonL_cons_ne c _ hc,
      ih (fun hm => h (by simp [hm]))]

end SplitCrlfLemmas

section FindAndStringLemmas

theorem findIdxq_sentinel {α : Type} (p : α → Bool) (pre : List α) (y : α)
    (suf : List α) (i : Nat) (h : ∀ x ∈ pre, p x = false) (hy : p y = true) :
    List.findIdx? p (pre ++ y :: suf) i = some (i + pre.length) := by
  induction pre generalizing i with
  | nil =>
    simp [List.findIdx?, hy]
  | cons c pre' ih =>
    have hc : p c = false := h c (by simp)
    rw [List.cons_append]
    simp only [List.findIdx?, hc]
    rw [if_neg (by simp), ih (i + 1) (fun x hx => h x (by simp [hx]))]
    simp [Nat.add_comm, Nat.add_assoc, Nat.add_left_comm]

theorem findIdxq_isSome {α : Type} (p : α → Bool) (l : List α) (i : Nat)
    (h : ∃ x ∈ l, p x = true) : (List.findIdx? p l i).isSome = true := by
  induction l generalizing i with
  | nil => simp at h
  | cons c t ih =>
    by_cases hc : p c = true
    · simp [List.findIdx?, hc]
    · simp only [List.findIdx?]
      rw [if_neg (by simp [hc])]
      rcases h with ⟨x, hx, hpx⟩
      rcases List.mem_cons.mp hx with rfl | hx'
      · exact absurd hpx hc
      · exact ih (i + 1) ⟨x, hx', hpx⟩

theorem findIdxq_lt_length {α : Type} (p : α → Bool) (l : List α) (i j : Nat)
    (h : List.findIdx? p l i = some j) : j < i + l.length := by
  induction l generalizing i with
  | nil => simp [List.findIdx?] at h
  | cons c t ih =>
    simp only [List.findIdx?] at h
    by_cases hc : p c = true
    · rw [if_pos (by simp [hc])] at h
      injection h with h2
      subst h2
      simp
    · rw [if_neg (by simp [hc])] at h
      have := ih (i + 1) h
      simp only [List.length_cons]
      omega

theorem string_mk_data (s : String) : String.mk s.data = s := rfl

theorem string_eq_of_data {s t : String} (h : s.data = t.data) : s = t := by
  cases s
  cases t
  exact congrArg String.mk h

end FindAndStringLemmas

section ClaimC5

set_option maxHeartbeats 2000000 in
/-- Claim C5: for every StatusCode variant `c`,
`try_from_int (as_int c) = some c`; whenever `try_from_int n = some c`,
`as_int c = n`; and every integer outside the supported set maps to `none`. -/
theorem status_code_int_roundtrip :
    (∀ c : StatusCode, StatusCode.try_from_int c.as_int = some c) ∧
    (∀ (n : StatusCodeInt) (c : StatusCode),
      StatusCode.try_from_int n = some c → c.as_int = n) ∧
    (∀ n : StatusCodeInt, (∀ c : StatusCode, c.as_int ≠ n) →
      StatusCode.try_from_int n = none) := by
  have part1 : ∀ c : StatusCode, StatusCode.try_from_int c.as_int = some c := by
    intro c
    cases c <;> rfl
  have part2 : ∀ (n : StatusCodeInt) (c : StatusCode),
      StatusCode.try_from_int n = some c → c.as_int = n := by
    intro n c h
    unfold StatusCode.try_from_int at h
    split at h
    all_goals first
      | exact Option.noConfusion h
      | (injection h with h2; subst_vars; rfl)
  refine ⟨part1, part2, ?_⟩
  intro n hn
  cases e : StatusCode.try_from_int n with
  | none => rfl
  | some c => exact absurd (part2 n c e) (hn c)

/-- Witness for C5 at concrete inputs. -/
theorem status_code_int_roundtrip_witness :
    StatusCode.try_from_int 600 = none ∧ StatusCode.Ok.as_int = 200 :=
  ⟨status_code_int_roundtrip.2.2 600 (by decide),
   status_code_int_roundtrip.2.1 200 .Ok (by decide)⟩

end ClaimC5

section ClaimC6

/-- `Version::try_from_first_line` in token form: the trim and the re-filter
of the already nonempty whitespace tokens change nothing, so the function is
the stated case analysis on the whitespace tokens of the raw line. -/
theorem version_first_line_tokens (s : String) :
    Version.try_from_first_line s =
      match splitWsL s.data with
      | [_, _] => .ok .V0_9
      | [_, _, v] =>
        if v = "HTTP/1.1".data then .ok .V1_1
        else if v = "HTTP/1.0".data then .ok .V1_0
        else .error .InvalidHttpVersion
      | _ => .error .FirstLineWordCountMismatch := by
  have hparts : (splitWsL (rustTrimL s.data)).filter
      (fun p => decide ((rustTrimL p).length ≠ 0)) = splitWsL s.data := by
    rw [splitWsL_trim]
    apply List.filter_eq_self.mpr
    intro t ht
    have hok := splitWsL_tokens_ok s.data t ht
    have htr : rustTrimL t = t := rustTrimL_of_no_ws t hok.2
    simp [htr, hok.1]
  unfold Version.try_from_first_line
  rw [hparts]

/-- Claim C6: splitting a request start line into nonempty whitespace tokens,
exactly 2 tokens yields V0_9; exactly 3 tokens inspects the third token, which
must equal "HTTP/1.1" or "HTTP/1.0" literally, anything else failing with
InvalidHttpVersion; any other token count fails with
FirstLineWordCountMismatch. -/
theorem version_request_line_rule (s : String) :
    ((splitWsL s.data).length = 2 → Version.try_from_first_line s = .ok .V0_9) ∧
    (∀ a b v, splitWsL s.data = [a, b, v] →
      Version.try_from_first_line s =
        (if v = "HTTP/1.1".data then .ok .V1_1
         else if v = "HTTP/1.0".data then .ok .V1_0
         else .error .InvalidHttpVersion)) ∧
    ((splitWsL s.data).length ≠ 2 → (splitWsL s.data).length ≠ 3 →
      Version.try_from_first_line s = .error .FirstLineWordCountMismatch) := by
  have hm := version_first_line_tokens s
  refine ⟨?_, ?_, ?_⟩
  · intro hlen
    cases hL : splitWsL s.data with
    | nil => rw [hL] at hlen; simp at hlen
    | cons a t =>
      cases t with
      | nil => rw [hL] at hlen; simp at hlen
      | cons b t2 =>
        cases t2 with
        | nil => rw [hL] at hm; exact hm
        | cons c t3 => rw [hL] at hlen; simp at hlen
  · intro a b v hL
    rw [hL] at hm
    exact hm
  · intro h2 h3
    cases hL : splitWsL s.data with
    | nil => rw [hL] at hm; exact hm
    | cons a t =>
      cases t with
      | nil => rw [hL] at hm; exact hm
      | cons b t2 =>
        cases t2 with
        | nil => rw [hL] at h2; simp at h2
        | cons c t3 =>
          cases t3 with
          | nil => rw [hL] at h3; simp at h3
          | cons d t4 => rw [hL] at hm; exact hm

/-- Witness for C6 at the four concrete request lines of the spec. -/
theorem version_request_line_rule_witness :
    Version.try_from_first_line "GET /api" = .ok .V0_9 ∧
    Version.try_from_first_line "POST / HTTP/1.0" = .ok .V1_0 ∧
    Version.try_from_first_line "POST / HTTP/1.1" = .ok .V1_1 ∧
    Version.try_from_first_line "GET /api HTTP/2.0" = .error .InvalidHttpVersion := by
  refine ⟨(version_request_line_rule "GET /api").1 (by decide), ?_, ?_, ?_⟩
  · exact ((version_request_line_rule "POST / HTTP/1.0").2.1
      "POST".data "/".data "HTTP/1.0".data (by decide)).trans (by decide)
  · exact ((version_request_line_rule "POST / HTTP/1.1").2.1
      "POST".data "/".data "HTTP/1.1".data (by decide)).trans (by decide)
  · exact ((version_request_line_rule "GET /api HTTP/2.0").2.1
      "GET".data "/api".data "HTTP/2.0".data (by decide)).trans (by decide)

end ClaimC6

section ClaimC2

/-- Claim C2, the code evaluated at the failing input: parsing
`"HTTP/1.0 200 OK\r\nContent-Length: 13\r\n\r\nHello, world!"` succeeds, with
version V1_0 and status Ok both extracted from segment 0 (neither
InvalidHttpVersion nor InvalidStatusLine is raised), but the prefix-keeping
`drain` makes the parsed body the joined status and header lines
`"HTTP/1.0 200 OK\r\nContent-Length: 13\r\n"` instead of the
`"Hello, world!"` that the claim — and the source's own comments about the
body — require. -/
theorem response_parse_example_actual :
    ResponsePacketBuilder.try_from_str
        "HTTP/1.0 200 OK\r\nContent-Length: 13\r\n\r\nHello, world!" =
      some (.ok { version := some .V1_0, status := some .Ok,
                  headers := some [{ key := "Content-Length", value := " 13" }],
                  body := some "HTTP/1.0 200 OK\r\nContent-Length: 13\r\n" }) ∧
    some "HTTP/1.0 200 OK\r\nContent-Length: 13\r\n" ≠ some "Hello, world!" := by
  exact ⟨by decide, by decide⟩

end ClaimC2

section ClaimC4

/-- The rendered integer of every status code is a nonempty whitespace-free
token. -/
theorem as_int_repr_token (c : StatusCode) :
    (toString c.as_int).data ≠ [] ∧
      ∀ ch ∈ (toString c.as_int).data, rustIsWhitespace ch = false := by
  cases c <;> exact (by decide)

/-- Claim C4: `StatusCode::try_from_first_res_line` succeeds only when the
line has exactly 3 whitespace tokens whose second parses to a supported code
and whose third equals that code's canonical description exactly;
consequently, for every status code whose canonical description splits into
two or more whitespace tokens (e.g. "Not Found"), the line
`"{version} {code} {description}"` fails with `InvalidStatusLine`. -/
theorem status_line_single_word_reason :
    (∀ (s : String) (c : StatusCode),
      StatusCode.try_from_first_res_line s = .ok c →
        ∃ t0 t1 n, splitWsL s.data = [t0, t1, c.description.data] ∧
          parseUsizeL t1 = some n ∧ StatusCode.try_from_int n = some c) ∧
    (∀ (c : StatusCode) (v : String), v.data ≠ [] →
      (∀ ch ∈ v.data, rustIsWhitespace ch = false) →
      2 ≤ (splitWsL c.description.data).length →
      StatusCode.try_from_first_res_line
          ⟨v.data ++ (' ' :: ((toString c.as_int).data ++
            (' ' :: c.description.data)))⟩ = .error .InvalidStatusLine) := by
  constructor
  · intro s c h
    unfold StatusCode.try_from_first_res_line at h
    split at h
    · rename_i x p1 p2 heq
      split at h
      · exact Except.noConfusion h
      · rename_i n hparse
        split at h
        · rename_i code_enum hint
          split_ifs at h with hdesc
          injection h with h2
          subst h2
          have hp2 : code_enum.description.data = p2 := by
            first
              | exact hdesc
              | exact not_not.mp hdesc
          exact ⟨x, p1, n, by rw [heq, hp2], hparse, hint⟩
        · exact Except.noConfusion h
    · exact Except.noConfusion h
  · intro c v hne hws hlen
    have hcode := as_int_repr_token c
    have h1 := splitWsL_token v.data
      (' ' :: ((toString c.as_int).data ++ (' ' :: c.description.data)))
      hne hws (Or.inr ⟨' ', _, rfl, by decide⟩)
    have h2 : splitWsL (' ' :: ((toString c.as_int).data ++
        (' ' :: c.description.data))) =
        splitWsL ((toString c.as_int).data ++ (' ' :: c.description.data)) :=
      splitWsL_cons_ws ' ' _ (by decide)
    have h3 := splitWsL_token (toString c.as_int).data
      (' ' :: c.description.data) hcode.1 hcode.2
      (Or.inr ⟨' ', c.description.data, rfl, by decide⟩)
    have h4 : splitWsL (' ' :: c.description.data) =
        splitWsL c.description.data :=
      splitWsL_cons_ws ' ' _ (by decide)
    obtain ⟨d1, d2, ds, hd⟩ : ∃ d1 d2 ds,
        splitWsL c.description.data = d1 :: d2 :: ds := by
      cases hD : splitWsL c.description.data with
      | nil => rw [hD] at hlen; simp at hlen
      | cons d1 t =>
        cases t with
        | nil => rw [hD] at hlen; simp at hlen
        | cons d2 ds => exact ⟨d1, d2, ds, rfl⟩
    unfold StatusCode.try_from_first_res_line
    have hdata : (⟨v.data ++ (' ' :: ((toString c.as_int).data ++
        (' ' :: c.description.data)))⟩ : String).data =
        v.data ++ (' ' :: ((toString c.as_int).data ++
          (' ' :: c.description.data))) := rfl
    rw [hdata, h1, h2, h3, h4, hd]

/-- Witness for C4 at the concrete line "HTTP/1.0 404 Not Found". -/
theorem status_line_single_word_reason_witness :
    StatusCode.try_from_first_res_line "HTTP/1.0 404 Not Found" =
      .error .InvalidStatusLine := by
  have h := status_line_single_word_reason.2 .NotFound "HTTP/1.0"
    (by decide) (by decide) (by decide)
  exact (congrArg StatusCode.try_from_first_res_line (by decide)).trans h

end ClaimC4

section ClaimC3

theorem string_join_cons (x : String) (l : List String) :
    String.join (x :: l) = x ++ String.join l := by
  apply string_eq_of_data
  simp [String.join_eq, String.data_append]

/-- The header-rendering loop is the concatenation of one
`"{key}: {value}\r\n"` line per header. -/
theorem headersRender_eq_join (hs : List Header) :
    headersRender hs =
      String.join (hs.map (fun h => h.key ++ ": " ++ h.value ++ "\r\n")) := by
  induction hs with
  | nil => rfl
  | cons h t ih =>
    show h.key ++ ": " ++ h.value ++ "\r\n" ++ headersRender t = _
    rw [List.map_cons, string_join_cons, ih]

/-- Claim C3: for a response packet with version V1_0 or V1_1 and a status
present, `try_to_string` emits the status line plus CRLF; when the header
field is present (even as an empty sequence) it emits every header line with
CRLF and one additional blank-line CRLF before the optional body; when the
header field is absent no blank-line CRLF is emitted and the body follows the
status line's CRLF directly. -/
theorem response_render_blank_line (p : ResponsePacket) (c : StatusCode)
    (hv : p.version = .V1_0 ∨ p.version = .V1_1) (hst : p.status = some c) :
    (∀ hdrs, p.headers = some hdrs →
      p.try_to_string = .ok (p.version.to_string ++ " " ++
        c.code_and_description ++ "\r\n" ++
        String.join (hdrs.map (fun h => h.key ++ ": " ++ h.value ++ "\r\n")) ++
        "\r\n" ++ p.body.getD "")) ∧
    (p.headers = none →
      p.try_to_string = .ok (p.version.to_string ++ " " ++
        c.code_and_description ++ "\r\n" ++ p.body.getD "")) := by
  obtain ⟨v, st, hd, bd⟩ := p
  simp only at hst
  subst hst
  constructor
  · intro hdrs hh
    simp only at hh
    subst hh
    rcases hv with hv | hv <;> simp only at hv <;> subst hv <;>
      cases bd with
      | none =>
        refine congrArg Except.ok ?_
        dsimp only
        rw [headersRender_eq_join]
        simp [String.append_assoc]
      | some b =>
        refine congrArg Except.ok ?_
        dsimp only
        rw [headersRender_eq_join]
        simp [String.append_assoc]
  · intro hh
    simp only at hh
    subst hh
    rcases hv with hv | hv <;> simp only at hv <;> subst hv <;>
      cases bd with
      | none =>
        refine congrArg Except.ok ?_
        dsimp only
        simp [String.append_assoc]
      | some b =>
        refine congrArg Except.ok ?_
        dsimp only
        simp [String.append_assoc]

/-- Witness for C3: one packet with an empty-but-present header list and one
with an absent header list. -/
theorem response_render_blank_line_witness :
    ResponsePacket.try_to_string
        { version := .V1_0, status := some .Ok, headers := some [],
          body := some "xy" } = .ok "HTTP/1.0 200 OK\r\n\r\nxy" ∧
    ResponsePacket.try_to_string
        { version := .V1_0, status := some .Ok, headers := none,
          body := some "xy" } = .ok "HTTP/1.0 200 OK\r\nxy" := by
  constructor
  · exact ((response_render_blank_line
      { version := .V1_0, status := some .Ok, headers := some [],
        body := some "xy" } .Ok (Or.inl rfl) rfl).1 [] rfl).trans (by decide)
  · exact ((response_render_blank_line
      { version := .V1_0, status := some .Ok, headers := none,
        body := some "xy" } .Ok (Or.inl rfl) rfl).2 rfl).trans (by decide)

end ClaimC3

section ClaimC7

/-- Claim C7: whenever the header block of a byte source declares a
Content-Length of `n` but fewer than `n` bytes remain after the terminator,
`read_full_packet` returns an UnexpectedEof error reporting the expected and
actually-received byte counts, and never returns Ok with a shorter body. -/
theorem read_full_packet_truncated_body (input hdr rest line k after : List Char)
    (n : Nat)
    (h1 : splitAtDoubleCrlf input = some (hdr, rest))
    (h2 : findContentLengthLineL hdr = some line)
    (h3 : splitOnceColonL line = some (k, after))
    (h4 : parseUsizeL (rustTrimL after) = some n)
    (h5 : rest.length < n) :
    read_full_packet input = .error ⟨.unexpectedEof,
      "Expected " ++ toString n ++ " bytes for body, but only received " ++
        toString rest.length⟩ ∧
    ∀ out, read_full_packet input ≠ .ok out := by
  have hmain : read_full_packet input = .error ⟨.unexpectedEof,
      "Expected " ++ toString n ++ " bytes for body, but only received " ++
        toString rest.length⟩ := by
    unfold read_full_packet
    rw [h1]
    dsimp only
    rw [h2]
    dsimp only
    rw [h3]
    dsimp only
    rw [h4]
    dsimp only
    rw [if_pos h5]
  refine ⟨hmain, fun out hok => ?_⟩
  rw [hmain] at hok
  cases hok

/-- Witness for C7 at the truncated-body response of the test suite. -/
theorem read_full_packet_truncated_body_witness :
    read_full_packet "HTTP/1.0 200 OK\r\nContent-Length: 20\r\n\r\nShort body".data =
      .error ⟨.unexpectedEof, "Expected 20 bytes for body, but only received 10"⟩ := by
  have h := (read_full_packet_truncated_body
    "HTTP/1.0 200 OK\r\nContent-Length: 20\r\n\r\nShort body".data
    "HTTP/1.0 200 OK\r\nContent-Length: 20\r\n\r\n".data
    "Short body".data
    "Content-Length: 20".data
    "Content-Length".data
    " 20".data
    20 (by decide) (by decide) (by decide) (by decide) (by decide)).1
  exact h.trans (by decide)

end ClaimC7

section ClaimC8

/-- Claim C8: `read_full_packet` on
`"POST /submit HTTP/1.0\r\nContent-Length: 0\r\n\r\n"` returns the header text
and `some ""` — an explicit empty body, distinct from `none`; and on any
source whose header block contains no line starting with `"content-length:"`
(case-insensitively) it returns the header text and `none`. -/
theorem read_full_packet_empty_and_absent_body :
    (read_full_packet "POST /submit HTTP/1.0\r\nContent-Length: 0\r\n\r\n".data =
      .ok ("POST /submit HTTP/1.0\r\nContent-Length: 0\r\n\r\n", some "")) ∧
    (∀ input hdr rest, splitAtDoubleCrlf input = some (hdr, rest) →
      findContentLengthLineL hdr = none →
      read_full_packet input = .ok (⟨hdr⟩, none)) := by
  constructor
  · decide
  · intro input hdr rest h1 h2
    unfold read_full_packet
    rw [h1]
    dsimp only
    rw [h2]

/-- Witness for C8's universally quantified part at the body-less request of
the test suite. -/
theorem read_full_packet_empty_and_absent_body_witness :
    read_full_packet "GET /index.html HTTP/1.0\r\nHost: example.com\r\n\r\n".data =
      .ok ("GET /index.html HTTP/1.0\r\nHost: example.com\r\n\r\n", none) := by
  have h := read_full_packet_empty_and_absent_body.2
    "GET /index.html HTTP/1.0\r\nHost: example.com\r\n\r\n".data
    "GET /index.html HTTP/1.0\r\nHost: example.com\r\n\r\n".data
    [] (by decide) (by decide)
  exact h.trans (by decide)

end ClaimC8

section ClaimC10

/-- A response builder whose version and status are both set always builds. -/
theorem try_build_of_some (ver : Version) (st : StatusCode)
    (hd : Option (List Header)) (bd : Option String) :
    ∃ p, ResponsePacketBuilder.try_build
      { version := some ver, status := some st, headers := hd, body := bd } =
        .ok p := by
  cases ver
  · exact ⟨_, rfl⟩
  · exact ⟨_, rfl⟩
  · exact ⟨_, rfl⟩

/-- Claim C10: whenever `ResponsePacketBuilder::try_from_str` returns Ok, the
resulting builder has both version and status set, and `try_build` on it
always succeeds (in particular it never returns NoVersionFound or
NoStatusCode). -/
theorem response_parse_ok_builds (s : String) (b : ResponsePacketBuilder)
    (h : ResponsePacketBuilder.try_from_str s = some (.ok b)) :
    b.version.isSome = true ∧ b.status.isSome = true ∧
      ∃ p, b.try_build = .ok p := by
  unfold ResponsePacketBuilder.try_from_str at h
  split at h
  · simp at h
  · dsimp only at h
    split at h
    · simp at h
    · split at h
      · exact Option.noConfusion h
      · split at h
        · simp at h
        · split at h
          · simp at h
          · split at h
            · simp at h
            · split at h
              · simp at h
              · split at h
                · exact Option.noConfusion h
                · split at h
                  · exact Option.noConfusion h
                  · injection h with h2
                    injection h2 with h3
                    subst h3
                    exact ⟨rfl, rfl, try_build_of_some _ _ _ _⟩

/-- Witness for C10 at the concrete response of the spec example. -/
theorem response_parse_ok_builds_witness :
    ((some Version.V1_0 : Option Version).isSome = true ∧
      (some StatusCode.Ok : Option StatusCode).isSome = true ∧
      ∃ p, ResponsePacketBuilder.try_build
        { version := some .V1_0, status := some .Ok,
          headers := some [{ key := "Content-Length", value := " 13" }],
          body := some "HTTP/1.0 200 OK\r\nContent-Length: 13\r\n" } = .ok p) :=
  response_parse_ok_builds
    "HTTP/1.0 200 OK\r\nContent-Length: 13\r\n\r\nHello, world!"
    { version := some .V1_0, status := some .Ok,
      headers := some [{ key := "Content-Length", value := " 13" }],
      body := some "HTTP/1.0 200 OK\r\nContent-Length: 13\r\n" }
    (by decide)

end ClaimC10

section ClaimC9

/-- `Version::try_from_first_line` only fails with `InvalidHttpVersion` or
`FirstLineWordCountMismatch`. -/
theorem version_first_line_error (s : String) (e : PacketErr)
    (h : Version.try_from_first_line s = .error e) :
    e = .InvalidHttpVersion ∨ e = .FirstLineWordCountMismatch := by
  rw [version_first_line_tokens s] at h
  split at h
  · exact Except.noConfusion h
  · split_ifs at h
    injection h with h2
    exact .inl h2.symm
  · injection h with h2
    exact .inr h2.symm

/-- `Header::try_from` only fails with `MalformedHeader`. -/
theorem header_try_from_error (l : String) (e : PacketErr)
    (h : Header.try_from l = .error e) : ∃ str, e = .MalformedHeader str := by
  unfold Header.try_from at h
  split at h
  · injection h with h2
    exact ⟨l, h2.symm⟩
  · exact Except.noConfusion h

/-- The header loop only fails with `MalformedHeader`. -/
theorem parseHeaderLines_error (ls : List (List Char)) (e : PacketErr)
    (h : parseHeaderLines ls = .error e) : ∃ str, e = .MalformedHeader str := by
  induction ls with
  | nil => exact Except.noConfusion h
  | cons l rest ih =>
    unfold parseHeaderLines at h
    split at h
    · exact Except.noConfusion h
    · split at h
      · rename_i e2 herr
        injection h with h2
        exact h2 ▸ header_try_from_error _ _ herr
      · split at h
        · rename_i hok e3 herr3
          injection h with h2
          exact ih (h2 ▸ herr3)
        · exact Except.noConfusion h

/-- Claim C9: for every input string, splitting on CRLF yields at least one
segment (the `InvalidLines` branch is unreachable), and
`RequestPacketBuilder::try_from_str` terminates without panicking — neither
the guarded `expect` nor the `drain` bound check fires, so the result is
always `some` — and it never returns `InvalidLines`. -/
theorem request_parse_no_panic_no_invalid_lines (s : String) :
    splitCrlfL s.data ≠ [] ∧
    ∃ r, RequestPacketBuilder.try_from_str s = some r ∧
      r ≠ .error .InvalidLines := by
  refine ⟨splitCrlfL_ne_nil s.data, ?_⟩
  obtain ⟨l0, lt, hL⟩ : ∃ l0 lt, splitCrlfL s.data = l0 :: lt := by
    cases hsp : splitCrlfL s.data with
    | nil => exact absurd hsp (splitCrlfL_ne_nil s.data)
    | cons a t => exact ⟨a, t, rfl⟩
  unfold RequestPacketBuilder.try_from_str
  rw [hL]
  dsimp only
  cases hv : Version.try_from_first_req_line ⟨l0⟩ with
  | error e =>
    refine ⟨.error e, rfl, fun hc => ?_⟩
    injection hc with hc2
    rcases version_first_line_error ⟨l0⟩ e hv with rfl | rfl <;>
      exact PacketErr.noConfusion hc2
  | ok version =>
    dsimp only
    cases hfp : ((splitWsL l0).map rustTrimL).filter (fun x => x.length > 0) with
    | nil => exact ⟨_, rfl, by simp⟩
    | cons m t =>
      cases t with
      | nil => exact ⟨_, rfl, by simp⟩
      | cons u restParts =>
        dsimp only
        by_cases hlen : restParts.length > 1
        · rw [if_pos hlen]
          exact ⟨_, rfl, by simp⟩
        · rw [if_neg hlen]
          cases hm : Method.try_from ⟨m⟩ with
          | none => exact ⟨_, rfl, by simp⟩
          | some method =>
            dsimp only
            by_cases hmem : ([] : List Char) ∈ l0 :: lt
            · rw [if_neg (not_not_intro hmem)]
              cases hph : parseHeaderLines ((l0 :: lt).drop 1) with
              | error e2 =>
                refine ⟨.error e2, rfl, fun hc => ?_⟩
                injection hc with hc2
                obtain ⟨str, rfl⟩ := parseHeaderLines_error _ _ hph
                exact PacketErr.noConfusion hc2
              | ok headers =>
                dsimp only
                have hidx : ((l0 :: lt).findIdx?
                    (fun x => x = ([] : List Char))).isSome = true :=
                  findIdxq_isSome _ _ 0 ⟨[], hmem, by simp⟩
                obtain ⟨idx, hidx2⟩ := Option.isSome_iff_exists.mp hidx
                rw [hidx2]
                dsimp only
                have hlt := findIdxq_lt_length _ _ 0 idx hidx2
                rw [if_neg (by omega)]
                exact ⟨_, rfl, by simp⟩
            · rw [if_pos hmem]
              exact ⟨_, rfl, by simp⟩

end ClaimC9

section ClaimC1

/-- Every method token is nonempty and whitespace-free. -/
theorem method_token (m : Method) :
    (m.to_string).data ≠ [] ∧
      ∀ c ∈ (m.to_string).data, rustIsWhitespace c = false := by
  cases m <;> exact (by decide)

/-- Parsing a rendered method token gives the method back. -/
theorem method_parse_render (m : Method) :
    Method.try_from m.to_string = some m := by
  cases m <;> rfl

/-- Every version literal is whitespace-free. -/
theorem version_token (v : Version) :
    ∀ c ∈ (v.to_string).data, rustIsWhitespace c = false := by
  cases v <;> decide

/-- A whitespace-free character list contains no CR. -/
theorem no_cr_of_no_ws (l : List Char)
    (h : ∀ c ∈ l, rustIsWhitespace c = false) : '\r' ∉ l :=
  fun hm => absurd (h '\r' hm) (by decide)

/-- A CR/LF-free header produces a CR-free wire line. -/
theorem headerLineL_no_cr (h : Header) (hk : '\r' ∉ h.key.data)
    (hv : '\r' ∉ h.value.data) : '\r' ∉ headerLineL h := by
  intro hm
  unfold headerLineL at hm
  rcases List.mem_append.mp hm with hm | hm
  · exact hk hm
  · rcases List.mem_cons.mp hm with hm | hm
    · exact absurd hm (by decide)
    · rcases List.mem_cons.mp hm with hm | hm
      · exact absurd hm (by decide)
      · exact hv hm

/-- A header line is never the empty segment. -/
theorem headerLineL_ne_nil (h : Header) : headerLineL h ≠ [] := by
  unfold headerLineL
  simp

/-- Character-level form of the header rendering loop. -/
theorem headersRender_data_cons (h : Header) (hs : List Header) :
    (headersRender (h :: hs)).data =
      headerLineL h ++ ('\r' :: '\n' :: (headersRender hs).data) := by
  show (h.key ++ ": " ++ h.value ++ "\r\n" ++ headersRender hs).data = _
  have h1 : (": " : String).data = [':', ' '] := rfl
  have h2 : ("\r\n" : String).data = ['\r', '\n'] := rfl
  simp [String.data_append, headerLineL, h1, h2]

/-- Splitting the rendered header block at CRLF yields one segment per header
line. -/
theorem splitCrlf_headers (hs : List Header) (tail : List Char)
    (hcr : ∀ h ∈ hs, '\r' ∉ headerLineL h) :
    splitCrlfL ((headersRender hs).data ++ tail) =
      hs.map headerLineL ++ splitCrlfL tail := by
  induction hs with
  | nil =>
    rw [show (headersRender []).data = [] from rfl, List.nil_append,
      List.map_nil, List.nil_append]
  | cons h hs' ih =>
    rw [headersRender_data_cons, List.append_assoc]
    simp only [List.cons_append]
    rw [splitCrlfL_append_line _ _ (hcr h (by simp)),
      ih (fun x hx => hcr x (by simp [hx]))]
    simp

/-- Character-level decomposition of `RequestPacket::to_string`. -/
theorem request_to_string_data (r : RequestPacket) :
    (r.to_string).data =
      ((r.method.to_string).data ++
          ' ' :: (r.url.data ++ ' ' :: (r.version.to_string).data)) ++
        ('\r' :: '\n' :: ((headersRender r.headers).data ++
          ('\r' :: '\n' ::
            (match r.body with
             | some b => b
             | none => "").data))) := by
  show (r.method.to_string ++ " " ++ r.url ++ " " ++ r.version.to_string ++
    "\r\n" ++ headersRender r.headers ++ "\r\n" ++
    (match r.body with
     | some b => b
     | none => "")).data = _
  have h1 : (" " : String).data = [' '] := rfl
  have h2 : ("\r\n" : String).data = ['\r', '\n'] := rfl
  simp [String.data_append, h1, h2]

/-- The header loop on rendered header lines followed by the blank sentinel
parses every line back, the value picking up the separator space. -/
theorem parseHeaderLines_rendered (hs : List Header) (tail : List (List Char))
    (hvalid : ∀ h ∈ hs, ':' ∉ h.key.data) :
    parseHeaderLines (hs.map headerLineL ++ ([] :: tail)) =
      .ok (hs.map (fun h => { key := h.key, value := " " ++ h.value })) := by
  induction hs with
  | nil =>
    rw [List.map_nil, List.nil_append, List.map_nil]
    rfl
  | cons h hs' ih =>
    rw [List.map_cons, List.cons_append]
    unfold parseHeaderLines
    rw [if_neg (headerLineL_ne_nil h)]
    have hsplit : Header.try_from ⟨headerLineL h⟩ =
        .ok { key := h.key, value := " " ++ h.value } := by
      unfold Header.try_from
      have hd : (⟨headerLineL h⟩ : String).data = headerLineL h := rfl
      rw [hd]
      unfold headerLineL
      rw [splitOnceColonL_append h.key.data (' ' :: h.value.data)
        (hvalid h (by simp))]
      rfl
    rw [hsplit, ih (fun x hx => hvalid x (by simp [hx])), List.map_cons]

/-- Joining the rendered header lines and the blank sentinel with CRLF
reproduces the rendered header block (its trailing CRLF coming from the
sentinel). -/
theorem joinCrlfL_headerLines (hs : List Header) :
    joinCrlfL (hs.map headerLineL ++ [([] : List Char)]) =
      (headersRender hs).data := by
  induction hs with
  | nil => rfl
  | cons h hs' ih =>
    rw [List.map_cons, List.cons_append,
      joinCrlfL_cons_of_ne_nil _ _ (by simp), ih, headersRender_data_cons]

set_option maxHeartbeats 1000000 in
/-- Claim C1 (amended): parsing the rendered wire text of a valid request
whose header keys contain no colon, then building, yields a packet equal to
the original in method, url, version and header key sequence; each header
value is reproduced with the serializer's separator space prefixed, and —
because the parser's `drain` keeps the removed prefix rather than the tail —
the parsed body is the joined start line and rendered header block, not the
original body. -/
theorem request_render_parse_roundtrip (r : RequestPacket)
    (hvalid : ValidRequest r) :
    (RequestPacketBuilder.try_from_str r.to_string).map
        (fun res => res.bind RequestPacketBuilder.try_build) =
      some (.ok { method := r.method, url := r.url, version := r.version,
                  headers := r.headers.map
                    (fun h => { key := h.key, value := " " ++ h.value }),
                  body := some (r.method.to_string ++ " " ++ r.url ++ " " ++
                    r.version.to_string ++ "\r\n" ++
                    headersRender r.headers) }) := by
  obtain ⟨method, url, version, headers, bodyOpt⟩ := r
  obtain ⟨hurl_ne, hurl_ws, hheaders, hbody⟩ := hvalid
  simp only at hurl_ne hurl_ws hheaders hbody
  have hm := method_token method
  have hvtok := version_token version
  have hsl_nocr : '\r' ∉ (method.to_string).data ++
      ' ' :: (url.data ++ ' ' :: (version.to_string).data) := by
    intro hmem
    rcases List.mem_append.mp hmem with hmem | hmem
    · exact absurd (hm.2 _ hmem) (by decide)
    · rcases List.mem_cons.mp hmem with hmem | hmem
      · exact absurd hmem (by decide)
      · rcases List.mem_append.mp hmem with hmem | hmem
        · exact absurd (hurl_ws _ hmem) (by decide)
        · rcases List.mem_cons.mp hmem with hmem | hmem
          · exact absurd hmem (by decide)
          · exact absurd (hvtok _ hmem) (by decide)
  have hcr_headers : ∀ h ∈ headers, '\r' ∉ headerLineL h := fun h hh =>
    headerLineL_no_cr h ((hheaders h hh).2.1) ((hheaders h hh).2.2.2.1)
  have hlines : splitCrlfL (RequestPacket.to_string
      ⟨method, url, version, headers, bodyOpt⟩).data =
      ((method.to_string).data ++
          ' ' :: (url.data ++ ' ' :: (version.to_string).data)) ::
        (headers.map headerLineL ++
          ([] :: splitCrlfL (match bodyOpt with
            | some b => b
            | none => "").data)) := by
    rw [request_to_string_data ⟨method, url, version, headers, bodyOpt⟩]
    dsimp only
    rw [splitCrlfL_append_line _ _ hsl_nocr,
      splitCrlf_headers _ _ hcr_headers, splitCrlfL_crlf]
  have htokens : splitWsL ((method.to_string).data ++
      ' ' :: (url.data ++ ' ' :: (version.to_string).data)) =
      (method.to_string).data :: url.data ::
        splitWsL (version.to_string).data := by
    rw [splitWsL_token (method.to_string).data _ hm.1 hm.2
        (Or.inr ⟨' ', _, rfl, by decide⟩),
      splitWsL_cons_ws ' ' _ (by decide),
      splitWsL_token url.data _ hurl_ne hurl_ws
        (Or.inr ⟨' ', _, rfl, by decide⟩),
      splitWsL_cons_ws ' ' _ (by decide)]
  have hv : Version.try_from_first_req_line
      (⟨(method.to_string).data ++
        ' ' :: (url.data ++ ' ' :: (version.to_string).data)⟩ : String) =
      .ok version := by
    unfold Version.try_from_first_req_line
    rw [version_first_line_tokens]
    have hd : (⟨(method.to_string).data ++
        ' ' :: (url.data ++ ' ' :: (version.to_string).data)⟩ : String).data =
        (method.to_string).data ++
          ' ' :: (url.data ++ ' ' :: (version.to_string).data) := rfl
    rw [hd, htokens]
    cases version <;> rfl
  have hfl : ((splitWsL ((method.to_string).data ++
      ' ' :: (url.data ++ ' ' :: (version.to_string).data))).map
        rustTrimL).filter (fun x => x.length > 0) =
      (method.to_string).data :: url.data ::
        splitWsL (version.to_string).data := by
    have htok := splitWsL_tokens_ok ((method.to_string).data ++
      ' ' :: (url.data ++ ' ' :: (version.to_string).data))
    have hmap : (splitWsL ((method.to_string).data ++
        ' ' :: (url.data ++ ' ' :: (version.to_string).data))).map
          rustTrimL =
        splitWsL ((method.to_string).data ++
          ' ' :: (url.data ++ ' ' :: (version.to_string).data)) := by
      refine (List.map_congr_left ?_).trans
        (List.map_id (splitWsL ((method.to_string).data ++
          ' ' :: (url.data ++ ' ' :: (version.to_string).data))))
      intro x hx
      exact rustTrimL_of_no_ws x (htok x hx).2
    rw [hmap]
    rw [show ((splitWsL ((method.to_string).data ++
        ' ' :: (url.data ++ ' ' :: (version.to_string).data))).filter
          (fun x => x.length > 0)) =
        splitWsL ((method.to_string).data ++
          ' ' :: (url.data ++ ' ' :: (version.to_string).data)) from
      List.filter_eq_self.mpr (fun x hx => by
        have hne := (htok x hx).1
        simpa using List.length_pos.mpr hne)]
    exact htokens
  have hrlen : ¬ ((splitWsL (version.to_string).data).length > 1) := by
    cases version <;> decide
  have hmem : ([] : List Char) ∈
      ((method.to_string).data ++
        ' ' :: (url.data ++ ' ' :: (version.to_string).data)) ::
      (headers.map headerLineL ++
        ([] :: splitCrlfL (match bodyOpt with
          | some b => b
          | none => "").data)) := by
    simp
  unfold RequestPacketBuilder.try_from_str
  rw [hlines]
  dsimp only
  rw [hv]
  dsimp only
  rw [hfl]
  dsimp only
  rw [if_neg hrlen]
  rw [show Method.try_from (⟨(method.to_string).data⟩ : String) = some method
    from method_parse_render method]
  dsimp only
  rw [if_neg (not_not_intro hmem)]
  rw [List.drop_succ_cons, List.drop_zero]
  rw [parseHeaderLines_rendered headers _ (fun h hh => (hheaders h hh).1)]
  dsimp only
  have hSLne : ((method.to_string).data ++
      ' ' :: (url.data ++ ' ' :: (version.to_string).data)) ≠ ([] : List Char) := by
    simp
  have hMne : ∀ x ∈ headers.map headerLineL, x ≠ ([] : List Char) := by
    intro x hx
    obtain ⟨h0, hh0, rfl⟩ := List.mem_map.mp hx
    exact headerLineL_ne_nil h0
  generalize hB : splitCrlfL (match bodyOpt with
    | some b => b
    | none => "").data = B
  generalize hSL : ((method.to_string).data ++
    ' ' :: (url.data ++ ' ' :: (version.to_string).data) : List Char) = SL
    at hSLne ⊢
  rw [show (SL :: (headers.map headerLineL ++ ([] :: B))) =
    (SL :: headers.map headerLineL) ++ ([] :: B) from by simp]
  rw [findIdxq_sentinel (fun x => decide (x = []))
    (SL :: headers.map headerLineL) [] B 0
    (by
      intro x hx
      rcases List.mem_cons.mp hx with rfl | hx'
      · simp [hSLne]
      · simp [hMne x hx'])
    (by simp)]
  dsimp only
  rw [if_neg (show ¬ (((SL :: headers.map headerLineL) ++
      ([] :: B)).length < 0 + (SL :: headers.map headerLineL).length + 1) from by
    simp only [List.length_append, List.length_cons, List.length_map]
    omega)]
  rw [show 0 + (SL :: headers.map headerLineL).length + 1 =
    ((SL :: headers.map headerLineL) ++ [([] : List Char)]).length from by simp]
  rw [show (SL :: headers.map headerLineL) ++ ([] :: B) =
    ((SL :: headers.map headerLineL) ++ [([] : List Char)]) ++ B from by simp]
  rw [List.take_left]
  rw [List.cons_append]
  rw [joinCrlfL_cons_of_ne_nil SL
    (headers.map headerLineL ++ [([] : List Char)]) (by simp)]
  rw [joinCrlfL_headerLines]
  rw [if_neg (show ¬ (SL ++ '\r' :: '\n' :: (headersRender headers).data =
    ([] : List Char)) from by simp)]
  rw [← hSL]
  rw [show (⟨((method.to_string).data ++
      ' ' :: (url.data ++ ' ' :: (version.to_string).data)) ++
      '\r' :: '\n' :: (headersRender headers).data⟩ : String) =
      method.to_string ++ " " ++ url ++ " " ++ version.to_string ++ "\r\n" ++
        headersRender headers from by
    apply string_eq_of_data
    have h1 : (" " : String).data = [' '] := rfl
    have h2 : ("\r\n" : String).data = ['\r', '\n'] := rfl
    simp [String.data_append, h1, h2]]
  rfl

/-- Counterexample to C1 as stated: the valid request
`GET / HTTP/1.0` with the colon-free header `Key: Value` and no body parses
back from its rendered text with header value `" Value"`, not `"Value"`, and
with body `Some "GET / HTTP/1.0\r\nKey: Value\r\n"` (the prefix kept by the
`drain`), not `None` — neither the header values nor the body are reproduced
exactly. -/
theorem request_roundtrip_value_cex :
    ValidRequest { method := .Get, url := "/", version := .V1_0,
                   headers := [{ key := "Key", value := "Value" }],
                   body := none } ∧
    (RequestPacketBuilder.try_from_str
        (RequestPacket.to_string
          { method := .Get, url := "/", version := .V1_0,
            headers := [{ key := "Key", value := "Value" }],
            body := none })).map
        (fun res => res.bind RequestPacketBuilder.try_build) =
      some (.ok { method := .Get, url := "/", version := .V1_0,
                  headers := [{ key := "Key", value := " Value" }],
                  body := some "GET / HTTP/1.0\r\nKey: Value\r\n" }) ∧
    ({ key := "Key", value := " Value" } : Header) ≠
      { key := "Key", value := "Value" } ∧
    (some "GET / HTTP/1.0\r\nKey: Value\r\n" : Option String) ≠ none :=
  ⟨by decide, by decide, by decide, by decide⟩

/-- Witness for the amended C1 at a concrete request with a header and a
body: the parsed body is the echoed start line and header block, not the
original `"xyz"`. -/
theorem request_render_parse_roundtrip_witness :
    (RequestPacketBuilder.try_from_str
        (RequestPacket.to_string
          { method := .Post, url := "/submit", version := .V1_1,
            headers := [{ key := "A", value := "b" }],
            body := some "xyz" })).map
        (fun res => res.bind RequestPacketBuilder.try_build) =
      some (.ok { method := .Post, url := "/submit", version := .V1_1,
                  headers := [{ key := "A", value := " b" }],
                  body := some "POST /submit HTTP/1.1\r\nA: b\r\n" }) := by
  have h := request_render_parse_roundtrip
    { method := .Post, url := "/submit", version := .V1_1,
      headers := [{ key := "A", value := "b" }], body := some "xyz" }
    (by decide)
  exact h.trans (by decide)

end ClaimC1

end HttpSplitter
